import Mathlib

/-!
Shallow embedding of `src/src/components/admin/shared/DataTable.tsx`
(a generic React data-table component with client-side pagination),
together with theorems checking the natural-language specification
against the code.

Modelling conventions:
* JavaScript numbers that only ever hold non-negative integers in the
  relevant code paths (`currentPage`, `pageSize`, `totalPages`, array
  indices) are modelled as `Nat`.
* `Array.prototype.slice(start, end)` with non-negative arguments is
  `(l.take end).drop start`.
* `Math.ceil(len / pageSize)` for naturals with `pageSize > 0` is
  `(len + pageSize - 1) / pageSize`.
* React rendering is modelled as pure functions from props/state to a
  description of the rendered output; a `useState` update during render
  is modelled as the `nextPage` field of `RenderStep`.
-/

namespace DataTable

/-- A JavaScript primitive value, as far as the component inspects one. -/
inductive JSValue where
  | str (s : String)
  | undefinedValue
  | null
  | bool (b : Bool)
deriving DecidableEq

/-- ECMAScript `String(v)` coercion on the modelled values. -/
def jsToString : JSValue → String
  | .str s => s
  | .undefinedValue => "undefined"
  | .null => "null"
  | .bool true => "true"
  | .bool false => "false"

/-- A row object `T extends { id: string }`: a stable id plus named fields. -/
structure Row where
  id : String
  fields : List (String × JSValue)
deriving DecidableEq

/-- JavaScript property access `row[name]`: an absent property reads as
`undefined` (no error is raised). -/
def jsGet (row : Row) (name : String) : JSValue :=
  match row.fields.lookup name with
  | some v => v
  | none => .undefinedValue

/-- Displayable cell content (`ReactNode`): either text or some other
opaque renderable node. -/
inductive CellContent where
  | text (s : String)
  | node (tag : Nat)
deriving DecidableEq

/-- `accessor: keyof T | ((row: T) => ReactNode)`. -/
inductive Accessor where
  | field (name : String)
  | fn (f : Row → CellContent)

/-- `interface Column<T>` from the source. -/
structure Column where
  header : String
  accessor : Accessor
  hideOnMobile : Bool := false
  mobileHighlight : Bool := false

/-- `getCellContent` (DataTable.tsx lines 71-75):
`typeof accessor === 'function' ? accessor(row) : String(row[accessor])`. -/
def getCellContent (row : Row) (column : Column) : CellContent :=
  match column.accessor with
  | .fn f => f row
  | .field name => .text (jsToString (jsGet row name))

/-- `totalPages = Math.ceil(data.length / pageSize)` (line 43). -/
def totalPages (len pageSize : Nat) : Nat :=
  (len + pageSize - 1) / pageSize

/-- `startIndex = (currentPage - 1) * pageSize` (line 44). -/
def startIndex (currentPage pageSize : Nat) : Nat :=
  (currentPage - 1) * pageSize

/-- `endIndex = startIndex + pageSize` (line 45). -/
def endIndex (currentPage pageSize : Nat) : Nat :=
  startIndex currentPage pageSize + pageSize

/-- `Array.prototype.slice(start, end)` for non-negative `start`, `end`. -/
def jsSlice (l : List α) (s e : Nat) : List α :=
  (l.take e).drop s

/-- The slice of `data` shown for a given page when pagination is on:
`data.slice(startIndex, endIndex)` (line 46). -/
def pageSlice (data : List α) (pageSize currentPage : Nat) : List α :=
  jsSlice data (startIndex currentPage pageSize) (endIndex currentPage pageSize)

/-- `paginatedData = pagination ? data.slice(startIndex, endIndex) : data`
(line 46). -/
def paginatedData (pagination : Bool) (data : List α)
    (pageSize currentPage : Nat) : List α :=
  if pagination then pageSlice data pageSize currentPage else data

/-- One invocation of the component function: the slice is computed first
(line 46), then the reset-to-page-1 check runs (lines 49-51).  `nextPage`
is the `currentPage` state after the invocation. -/
structure RenderStep (α : Type u) where
  slice : List α
  nextPage : Nat
deriving DecidableEq

/-- The pagination-relevant part of one render invocation of `DataTable`
(lines 42-51), in source order: `paginatedData` is derived from the
incoming `currentPage`, and only afterwards does the code test
`currentPage > totalPages && totalPages > 0` and call `setCurrentPage(1)`. -/
def renderStep (pagination : Bool) (data : List α)
    (pageSize currentPage : Nat) : RenderStep α :=
  let tp := totalPages data.length pageSize
  { slice := paginatedData pagination data pageSize currentPage,
    nextPage := if currentPage > tp ∧ 0 < tp then 1 else currentPage }

/-- One entry of the page-indicator strip: a page number or `'...'`. -/
inductive PageItem where
  | page (n : Nat)
  | ellipsis
deriving DecidableEq

/-- `getPageNumbers` (lines 173-197), with `maxVisiblePages = 5`. -/
def getPageNumbers (tp currentPage : Nat) : List PageItem :=
  if tp ≤ 5 then
    (List.range' 1 tp).map .page
  else if currentPage ≤ 3 then
    (List.range' 1 4).map .page ++ [.ellipsis, .page tp]
  else if tp - 2 ≤ currentPage then
    [.page 1, .ellipsis] ++ (List.range' (tp - 3) 4).map .page
  else
    [.page 1, .ellipsis] ++ (List.range' (currentPage - 1) 3).map .page
      ++ [.ellipsis, .page tp]

/-- Recognise the ellipsis marker. -/
def isEllipsis : PageItem → Bool
  | .ellipsis => true
  | .page _ => false

/-- Number of ellipsis markers in a strip. -/
def countEllipsis (xs : List PageItem) : Nat :=
  xs.countP isEllipsis

/-- `true` when no two consecutive entries are both ellipses. -/
def noAdjEllipsis : List PageItem → Bool
  | .ellipsis :: .ellipsis :: _ => false
  | _ :: rest => noAdjEllipsis rest
  | [] => true

/-- The page number carried by an indicator, if any. -/
def pageNum : PageItem → Option Nat
  | .page n => some n
  | .ellipsis => none

/-- The page numbers appearing in a strip, in order. -/
def pageNums (xs : List PageItem) : List Nat :=
  xs.filterMap pageNum

/-- `onClick={() => setCurrentPage(1)}` ("First page", line 206). -/
def firstTarget (_currentPage : Nat) : Nat := 1

/-- `onClick={() => setCurrentPage(prev => Math.max(1, prev - 1))}`
("Previous page", line 214). -/
def prevTarget (currentPage : Nat) : Nat := max 1 (currentPage - 1)

/-- `onClick={() => setCurrentPage(prev => Math.min(totalPages, prev + 1))}`
("Next page", line 241). -/
def nextTarget (tp currentPage : Nat) : Nat := min tp (currentPage + 1)

/-- `onClick={() => setCurrentPage(totalPages)}` ("Last page", line 249). -/
def lastTarget (tp : Nat) : Nat := tp

/-- `onClick={() => setCurrentPage(page)}` for a numbered button (line 229). -/
def jumpTarget (n : Nat) : Nat := n

/-- `PaginationControls` returns `null` when `!pagination || totalPages <= 1`
(line 171); otherwise the control strip is rendered. -/
def controlsRendered (pagination : Bool) (tp : Nat) : Bool :=
  pagination && decide (1 < tp)

/-- `columns.filter(col => col.mobileHighlight)` (lines 90-91): group (a)
of the mobile card. -/
def highlightColumns (columns : List Column) : List Column :=
  columns.filter (fun c => c.mobileHighlight)

/-- `columns.filter(col => !col.mobileHighlight && col.header !== 'Actions')`
(lines 100-101): group (b) of the mobile card. -/
def gridColumns (columns : List Column) : List Column :=
  columns.filter (fun c => !c.mobileHighlight && c.header != "Actions")

/-- The columns rendered in the trailing actions region (lines 110-117):
`columns.some(col => col.header === 'Actions')` guards a single render of
`columns.find(col => col.header === 'Actions')!`. -/
def actionsColumns (columns : List Column) : List Column :=
  match columns.find? (fun c => c.header == "Actions") with
  | some c => [c]
  | none => []

/-- One rendered mobile card: the highlight row, the label/value grid and
the actions region, in that order (lines 78-121). -/
structure Card where
  highlights : List CellContent
  grid : List (String × CellContent)
  actions : List CellContent
deriving DecidableEq

/-- `MobileCardView`'s card for one row. -/
def mobileCard (columns : List Column) (row : Row) : Card :=
  { highlights := (highlightColumns columns).map (getCellContent row),
    grid := (gridColumns columns).map (fun c => (c.header, getCellContent row c)),
    actions := (actionsColumns columns).map (getCellContent row) }

/-- `MobileCardView` over the current page slice (line 80). -/
def mobileCardView (columns : List Column) (rows : List Row) : List Card :=
  rows.map (mobileCard columns)

/-- `DesktopTableView` header row: one `<th>` per column, in order
(lines 131-140). -/
def desktopHeaders (columns : List Column) : List String :=
  columns.map (fun c => c.header)

/-- `DesktopTableView` body row for one record: one `<td>` per column,
in order (lines 150-159). -/
def desktopRow (columns : List Column) (row : Row) : List CellContent :=
  columns.map (getCellContent row)

/-- `DesktopTableView` over the current page slice (lines 124-167):
header cells and one body row per record. -/
def desktopTableView (columns : List Column) (rows : List Row) :
    List String × List (List CellContent) :=
  (desktopHeaders columns, rows.map (desktopRow columns))

/-- The top-level render result of `DataTable`: the early `loading` return
(lines 53-61), the early empty return (lines 63-69), or the table output
(lines 261-267). -/
inductive RenderResult where
  | loadingView
  | emptyView (message : String)
  | tableView (cards : Option (List Card))
      (table : List String × List (List CellContent))
      (controls : Option (List PageItem))

/-- The `DataTable` component body (lines 30-268) as a function of props
and the `currentPage` state, returning what is rendered. -/
def dataTable (columns : List Column) (data : List Row) (loading : Bool)
    (emptyMessage : String) (mobileCardViewFlag : Bool) (pagination : Bool)
    (pageSize currentPage : Nat) : RenderResult :=
  if loading then .loadingView
  else if data.length = 0 then .emptyView emptyMessage
  else
    let tp := totalPages data.length pageSize
    let pd := paginatedData pagination data pageSize currentPage
    .tableView
      (if mobileCardViewFlag then some (mobileCardView columns pd) else none)
      (desktopTableView columns pd)
      (if controlsRendered pagination tp then some (getPageNumbers tp currentPage)
       else none)

/-- Columns exhibiting the overlap between the mobile-card highlight group
and the actions group: the "Actions" column also has `mobileHighlight`. -/
def overlapColumns : List Column :=
  [{ header := "Name", accessor := .field "name", mobileHighlight := true },
   { header := "Actions", accessor := .field "actions", mobileHighlight := true }]

/-- A well-formed column list: one highlighted column, one plain column,
one actions column, none both highlighted and "Actions". -/
def sampleColumns : List Column :=
  [{ header := "Name", accessor := .field "name", mobileHighlight := true },
   { header := "Email", accessor := .field "email" },
   { header := "Actions", accessor := .field "actions" }]

/-! ## Helper lemmas -/

lemma pageSlice_eq_drop_take (data : List α) (ps c : Nat) :
    pageSlice data ps c = (data.drop ((c - 1) * ps)).take ps := by
  unfold pageSlice jsSlice endIndex
  rw [List.drop_take]
  unfold startIndex
  congr 1
  omega

lemma totalPages_zero (ps : Nat) : totalPages 0 ps = 0 := by
  unfold totalPages
  rcases Nat.eq_zero_or_pos ps with h | h
  · simp [h]
  · exact Nat.div_eq_of_lt (by omega)

lemma totalPages_succ (len ps : Nat) (hps : 0 < ps) (hlen : 0 < len) :
    totalPages len ps = totalPages (len - ps) ps + 1 := by
  unfold totalPages
  have h1 : len + ps - 1 = (len - 1) + ps := by omega
  rw [h1]
  rw [Nat.add_div_right _ hps]
  rcases Nat.lt_or_ge len ps with h | h
  · have e0 : len - ps = 0 := by omega
    rw [e0]
    rw [Nat.div_eq_of_lt (show len - 1 < ps by omega),
      Nat.div_eq_of_lt (show 0 + ps - 1 < ps by omega)]
  · have e1 : len - ps + ps - 1 = len - 1 := by omega
    rw [e1]

lemma totalPages_pos (len ps : Nat) (hps : 0 < ps) (hlen : 0 < len) :
    0 < totalPages len ps := by
  unfold totalPages
  exact (Nat.le_div_iff_mul_le hps).mpr (by omega)

lemma join_chunks {α : Type u} (ps : Nat) (hps : 0 < ps) :
    ∀ (n : Nat) (data : List α), data.length ≤ n →
      ((List.range (totalPages data.length ps)).map
        (fun k => (data.drop (k * ps)).take ps)).flatten = data := by
  intro n
  induction n with
  | zero =>
    intro data h
    have hd : data = [] := List.eq_nil_of_length_eq_zero (by omega)
    subst hd
    simp [totalPages_zero]
  | succ n ih =>
    intro data h
    by_cases hd : data.length = 0
    · have hd' : data = [] := List.eq_nil_of_length_eq_zero hd
      subst hd'
      simp [totalPages_zero]
    · rw [totalPages_succ _ _ hps (by omega), List.range_succ_eq_map]
      simp only [List.map_cons, List.flatten_cons, List.map_map]
      have htail : ∀ k : Nat, (data.drop (Nat.succ k * ps)).take ps
          = ((data.drop ps).drop (k * ps)).take ps := by
        intro k
        rw [List.drop_drop,
          show ps + k * ps = Nat.succ k * ps by rw [Nat.succ_mul, Nat.add_comm]]
      have hlen : data.length - ps = (data.drop ps).length := by simp
      calc (data.drop (0 * ps)).take ps ++
            ((List.range (totalPages (data.length - ps) ps)).map
              (fun k => (data.drop (Nat.succ k * ps)).take ps)).flatten
          = data.take ps ++
            ((List.range (totalPages ((data.drop ps).length) ps)).map
              (fun k => ((data.drop ps).drop (k * ps)).take ps)).flatten := by
            rw [hlen]
            simp only [Nat.zero_mul, List.drop_zero, htail]
        _ = data.take ps ++ data.drop ps := by
            rw [ih (data.drop ps) (by simp; omega)]
        _ = data := List.take_append_drop _ _

lemma highlight_grid_perm (cs : List Column)
    (h : ∀ c ∈ cs, c.header ≠ "Actions") :
    (highlightColumns cs ++ gridColumns cs).Perm cs := by
  unfold highlightColumns gridColumns
  have he : cs.filter (fun c => !c.mobileHighlight && c.header != "Actions")
      = cs.filter (fun c => !c.mobileHighlight) := by
    apply List.filter_congr
    intro c hc
    have hne := h c hc
    simp [hne]
  rw [he]
  exact List.filter_append_perm _ cs

lemma card_partition_perm : ∀ (cs : List Column),
    (∀ c ∈ cs, ¬(c.mobileHighlight = true ∧ c.header = "Actions")) →
    cs.countP (fun c => c.header == "Actions") ≤ 1 →
    (highlightColumns cs ++ gridColumns cs ++ actionsColumns cs).Perm cs := by
  intro cs
  induction cs with
  | nil => intro _ _; simp [highlightColumns, gridColumns, actionsColumns]
  | cons c cs ih =>
    intro h1 h2
    by_cases ha : c.header = "Actions"
    · have hmh : c.mobileHighlight = false := by
        have hc := h1 c (List.mem_cons_self _ _)
        cases hb : c.mobileHighlight
        · rfl
        · exact absurd ⟨hb, ha⟩ hc
      have hcount : cs.countP (fun x => x.header == "Actions") = 0 := by
        have hone : cs.countP (fun x => x.header == "Actions") + 1 ≤ 1 := by
          simpa [List.countP_cons, ha] using h2
        omega
      have hnone : ∀ x ∈ cs, x.header ≠ "Actions" := by
        intro x hx
        have hz := List.countP_eq_zero.mp hcount x hx
        simpa using hz
      have hH : highlightColumns (c :: cs) = highlightColumns cs := by
        simp [highlightColumns, List.filter_cons, hmh]
      have hG : gridColumns (c :: cs) = gridColumns cs := by
        simp [gridColumns, List.filter_cons, ha]
      have hA : actionsColumns (c :: cs) = [c] := by
        simp [actionsColumns, List.find?_cons, ha]
      rw [hH, hG, hA]
      have hp := highlight_grid_perm cs hnone
      refine List.Perm.trans ?_ (hp.cons c)
      exact List.perm_append_comm
    · have h1' : ∀ x ∈ cs, ¬(x.mobileHighlight = true ∧ x.header = "Actions") :=
        fun x hx => h1 x (List.mem_cons_of_mem _ hx)
      have h2' : cs.countP (fun x => x.header == "Actions") ≤ 1 := by
        rw [List.countP_cons] at h2
        omega
      have hA : actionsColumns (c :: cs) = actionsColumns cs := by
        simp [actionsColumns, List.find?_cons, ha]
      by_cases hm : c.mobileHighlight
      · have hH : highlightColumns (c :: cs) = c :: highlightColumns cs := by
          simp [highlightColumns, List.filter_cons, hm]
        have hG : gridColumns (c :: cs) = gridColumns cs := by
          simp [gridColumns, List.filter_cons, hm]
        rw [hH, hG, hA]
        exact (ih h1' h2').cons c
      · have hH : highlightColumns (c :: cs) = highlightColumns cs := by
          simp [highlightColumns, List.filter_cons, hm]
        have hG : gridColumns (c :: cs) = c :: gridColumns cs := by
          simp [gridColumns, List.filter_cons, hm, ha]
        rw [hH, hG, hA]
        have hassoc : (highlightColumns cs ++ c :: gridColumns cs) ++ actionsColumns cs
            = highlightColumns cs ++ c :: (gridColumns cs ++ actionsColumns cs) := by
          simp
        rw [hassoc]
        refine List.Perm.trans List.perm_middle ?_
        refine List.Perm.cons c ?_
        rw [← List.append_assoc]
        exact ih h1' h2'

/-! ## Claim theorems -/

/-- Claim C1: the page-indicator window function reproduces the spec's exact
four-branch structure: for `totalPages ≤ 5` every page `1..totalPages` in
order with no ellipsis, independent of `currentPage`; for `totalPages > 5`
and `currentPage ≤ 3` the window `[1,2,3,4,…,totalPages]`; for
`totalPages > 5` and `currentPage ≥ totalPages - 2` the window
`[1,…,totalPages-3,totalPages-2,totalPages-1,totalPages]`; otherwise
`[1,…,currentPage-1,currentPage,currentPage+1,…,totalPages]`; and the three
concrete examples for `totalPages = 10` at `currentPage = 1, 7, 9`. -/
theorem c1_window_branch_structure :
    (∀ t c : Nat, t ≤ 5 →
      getPageNumbers t c = (List.range' 1 t).map PageItem.page) ∧
    (∀ t c : Nat, 5 < t → c ≤ 3 →
      getPageNumbers t c =
        [.page 1, .page 2, .page 3, .page 4, .ellipsis, .page t]) ∧
    (∀ t c : Nat, 5 < t → t - 2 ≤ c →
      getPageNumbers t c =
        [.page 1, .ellipsis, .page (t - 3), .page (t - 2), .page (t - 1),
          .page t]) ∧
    (∀ t c : Nat, 5 < t → 3 < c → c < t - 2 →
      getPageNumbers t c =
        [.page 1, .ellipsis, .page (c - 1), .page c, .page (c + 1),
          .ellipsis, .page t]) ∧
    getPageNumbers 10 1 =
      [.page 1, .page 2, .page 3, .page 4, .ellipsis, .page 10] ∧
    getPageNumbers 10 7 =
      [.page 1, .ellipsis, .page 6, .page 7, .page 8, .ellipsis, .page 10] ∧
    getPageNumbers 10 9 =
      [.page 1, .ellipsis, .page 7, .page 8, .page 9, .page 10] := by
  refine ⟨?_, ?_, ?_, ?_, by decide, by decide, by decide⟩
  · intro t c h
    simp [getPageNumbers, h]
  · intro t c h5 h3
    rw [getPageNumbers, if_neg (by omega), if_pos h3]
    rfl
  · intro t c h5 hc
    rw [getPageNumbers, if_neg (by omega), if_neg (by omega), if_pos hc]
    simp [List.range']
    omega
  · intro t c h5 h3 hc
    rw [getPageNumbers, if_neg (by omega), if_neg (by omega), if_neg (by omega)]
    simp [List.range']
    omega

/-- Witness for C1: each quantified branch applied at a concrete input. -/
theorem c1_window_branch_structure_witness :
    getPageNumbers 3 2 = (List.range' 1 3).map PageItem.page ∧
    getPageNumbers 10 2 =
      [.page 1, .page 2, .page 3, .page 4, .ellipsis, .page 10] ∧
    getPageNumbers 10 9 =
      [.page 1, .ellipsis, .page 7, .page 8, .page 9, .page 10] ∧
    getPageNumbers 10 5 =
      [.page 1, .ellipsis, .page 4, .page 5, .page 6, .ellipsis, .page 10] :=
  ⟨c1_window_branch_structure.1 3 2 (by decide),
   c1_window_branch_structure.2.1 10 2 (by decide) (by decide),
   c1_window_branch_structure.2.2.1 10 9 (by decide) (by decide),
   c1_window_branch_structure.2.2.2.1 10 5 (by decide) (by decide) (by decide)⟩

/-- Claim C2: for every `totalPages > 5` and `currentPage ∈ [1, totalPages]`,
the window has length between 5 and 7, contains exactly one or two ellipsis
markers, contains page 1 and page `totalPages`, has no two adjacent
ellipsis markers, and has no repeated page number. -/
theorem c2_window_invariants (t c : Nat) (h5 : 5 < t) (hc1 : 1 ≤ c)
    (hc2 : c ≤ t) :
    (5 ≤ (getPageNumbers t c).length ∧ (getPageNumbers t c).length ≤ 7) ∧
    (countEllipsis (getPageNumbers t c) = 1 ∨
      countEllipsis (getPageNumbers t c) = 2) ∧
    PageItem.page 1 ∈ getPageNumbers t c ∧
    PageItem.page t ∈ getPageNumbers t c ∧
    noAdjEllipsis (getPageNumbers t c) = true ∧
    (pageNums (getPageNumbers t c)).Nodup := by
  clear hc1
  rw [getPageNumbers, if_neg (by omega)]
  by_cases h3 : c ≤ 3
  · rw [if_pos h3]
    refine ⟨by simp [List.range'], ?_, by simp [List.range'], by simp,
      by rfl, ?_⟩
    · simp [countEllipsis, List.range', isEllipsis]
    · simp [pageNums, List.range', pageNum, List.filterMap]
      omega
  · rw [if_neg h3]
    by_cases hr : t - 2 ≤ c
    · rw [if_pos hr]
      refine ⟨by simp [List.range'], ?_, by simp, ?_, by rfl, ?_⟩
      · simp [countEllipsis, List.range', isEllipsis]
      · simp [List.range']
        omega
      · simp [pageNums, List.range', pageNum, List.filterMap]
        omega
    · rw [if_neg hr]
      refine ⟨by simp [List.range'], ?_, by simp, ?_, ?_, ?_⟩
      · simp [countEllipsis, List.range', isEllipsis]
      · simp [List.range']
      · show noAdjEllipsis (_ :: _ :: _) = true
        simp [List.range', noAdjEllipsis]
      · simp [pageNums, List.range', pageNum, List.filterMap]
        omega

/-- Witness for C2: the invariants at `totalPages = 10`, `currentPage = 7`. -/
theorem c2_window_invariants_witness :
    (5 ≤ (getPageNumbers 10 7).length ∧ (getPageNumbers 10 7).length ≤ 7) ∧
    (countEllipsis (getPageNumbers 10 7) = 1 ∨
      countEllipsis (getPageNumbers 10 7) = 2) ∧
    PageItem.page 1 ∈ getPageNumbers 10 7 ∧
    PageItem.page 10 ∈ getPageNumbers 10 7 ∧
    noAdjEllipsis (getPageNumbers 10 7) = true ∧
    (pageNums (getPageNumbers 10 7)).Nodup :=
  c2_window_invariants 10 7 (by decide) (by decide) (by decide)

/-- Claim C3 counterexample: with 11 records, `pageSize = 10`
(`totalPages = 2`) and `currentPage = 5`, the render invocation that fires
the self-correction computes the (empty) page-5 slice, not the page-1
slice, because lines 44-46 run before the check at lines 49-51. -/
theorem c3_stale_slice_counterexample :
    totalPages (List.range 11).length 10 = 2 ∧
    (renderStep true (List.range 11) 10 5).nextPage = 1 ∧
    (renderStep true (List.range 11) 10 5).slice ≠
      pageSlice (List.range 11) 10 1 := by
  decide

/-- Claim C3 as amended: the self-correction check is evaluated after the
slice of the same render invocation is derived; a render beginning with
`currentPage > totalPages > 0` computes the stale slice of the incoming
`currentPage`, resets the page state to 1, and the immediately following
render invocation (triggered by that state update) computes the slice of
page 1. -/
theorem c3_reset_after_slice (data : List α) (ps c : Nat)
    (htp : 0 < totalPages data.length ps)
    (hc : totalPages data.length ps < c) :
    (renderStep true data ps c).nextPage = 1 ∧
    (renderStep true data ps c).slice = pageSlice data ps c ∧
    (renderStep true data ps ((renderStep true data ps c).nextPage)).slice
      = pageSlice data ps 1 := by
  refine ⟨?_, rfl, ?_⟩
  · simp only [renderStep]
    rw [if_pos ⟨hc, htp⟩]
  · simp only [renderStep]
    rw [if_pos ⟨hc, htp⟩]
    rfl

/-- Witness for C3 (amended): 11 records, `pageSize = 10`,
`currentPage = 5`. -/
theorem c3_reset_after_slice_witness :
    (renderStep true (List.range 11) 10 5).nextPage = 1 ∧
    (renderStep true (List.range 11) 10 5).slice =
      pageSlice (List.range 11) 10 5 ∧
    (renderStep true (List.range 11) 10
      ((renderStep true (List.range 11) 10 5).nextPage)).slice
      = pageSlice (List.range 11) 10 1 :=
  c3_reset_after_slice (List.range 11) 10 5 (by decide) (by decide)

/-- Claim C4: with pagination enabled, the visible slice is
`records[startIndex, endIndex)` with the upper bound clamped to the
collection length (stated as the drop/take equation, the element-wise
identity, and the length formula); the concrete example
(23 records, `pageSize = 10`, `currentPage = 3`) yields `records[20:23]`
and `totalPages = 3`; with pagination disabled the visible slice is the
whole collection and the control strip is not rendered. -/
theorem c4_slice_computation (data : List α) (ps c : Nat) (hps : 0 < ps)
    (hc : 1 ≤ c) :
    paginatedData true data ps c = (data.drop (startIndex c ps)).take ps ∧
    (∀ i : Nat, i < ps →
      (paginatedData true data ps c)[i]? = data[startIndex c ps + i]?) ∧
    (paginatedData true data ps c).length
      = min (endIndex c ps) data.length - startIndex c ps ∧
    (pageSlice (List.range 23) 10 3 = [20, 21, 22] ∧ totalPages 23 10 = 3) ∧
    paginatedData false data ps c = data ∧
    controlsRendered false (totalPages data.length ps) = false := by
  clear hps hc
  refine ⟨pageSlice_eq_drop_take data ps c, ?_, ?_, by decide, rfl, rfl⟩
  · intro i hi
    show (pageSlice data ps c)[i]? = _
    rw [pageSlice_eq_drop_take, List.getElem?_take, List.getElem?_drop]
    simp [hi, startIndex]
  · show (pageSlice data ps c).length = _
    rw [pageSlice_eq_drop_take]
    simp only [List.length_take, List.length_drop, startIndex, endIndex]
    omega

/-- Witness for C4: 23 records, `pageSize = 10`, `currentPage = 3`. -/
theorem c4_slice_computation_witness :
    paginatedData true (List.range 23) 10 3 =
      ((List.range 23).drop (startIndex 3 10)).take 10 ∧
    paginatedData false (List.range 23) 10 3 = List.range 23 :=
  ⟨(c4_slice_computation (List.range 23) 10 3 (by decide) (by decide)).1,
   (c4_slice_computation (List.range 23) 10 3 (by decide) (by decide)).2.2.2.2.1⟩

/-- Claim C5: for every record list and positive `pageSize`, with
`totalPages = ceil(length / pageSize)`, concatenating the visible slices
for pages `1..totalPages` reconstructs the record list exactly; every
non-final page has exactly `pageSize` records, and the final page is
non-empty and no longer than `pageSize`. -/
theorem c5_slices_reconstruct (data : List α) (ps : Nat) (hps : 0 < ps) :
    ((List.range (totalPages data.length ps)).map
      (fun k => pageSlice data ps (k + 1))).flatten = data ∧
    (∀ k, k + 1 < totalPages data.length ps →
      (pageSlice data ps (k + 1)).length = ps) ∧
    (0 < data.length →
      (pageSlice data ps (totalPages data.length ps)).length
          = data.length - (totalPages data.length ps - 1) * ps ∧
      0 < (pageSlice data ps (totalPages data.length ps)).length ∧
      (pageSlice data ps (totalPages data.length ps)).length ≤ ps) := by
  refine ⟨?_, ?_, ?_⟩
  · simp only [pageSlice_eq_drop_take, Nat.add_sub_cancel]
    exact join_chunks ps hps data.length data le_rfl
  · intro k hk
    rw [pageSlice_eq_drop_take, Nat.add_sub_cancel]
    simp only [List.length_take, List.length_drop]
    unfold totalPages at hk
    have h3 : (k + 2) * ps ≤ data.length + ps - 1 :=
      (Nat.le_div_iff_mul_le hps).mp hk
    have h4 : (k + 2) * ps = k * ps + ps + ps := by ring
    omega
  · intro hlen
    have htp : 0 < totalPages data.length ps := totalPages_pos _ _ hps hlen
    rw [pageSlice_eq_drop_take]
    simp only [List.length_take, List.length_drop]
    have h5 : totalPages data.length ps * ps ≤ data.length + ps - 1 := by
      unfold totalPages
      exact Nat.div_mul_le_self _ _
    have h6 : (totalPages data.length ps - 1 + 1) * ps
        = (totalPages data.length ps - 1) * ps + ps := Nat.succ_mul _ _
    rw [Nat.sub_add_cancel htp] at h6
    have h8 : (data.length + ps - 1) % ps < ps := Nat.mod_lt _ hps
    have h9 : ps * ((data.length + ps - 1) / ps) + (data.length + ps - 1) % ps
        = data.length + ps - 1 := Nat.div_add_mod _ _
    rw [Nat.mul_comm] at h9
    unfold totalPages at h6 h5 ⊢
    omega

/-- Witness for C5: five records with `pageSize = 2` (three pages). -/
theorem c5_slices_reconstruct_witness :
    ((List.range (totalPages (List.range 5).length 2)).map
      (fun k => pageSlice (List.range 5) 2 (k + 1))).flatten = List.range 5 ∧
    (pageSlice (List.range 5) 2 1).length = 2 ∧
    (pageSlice (List.range 5) 2 (totalPages (List.range 5).length 2)).length
      ≤ 2 :=
  ⟨(c5_slices_reconstruct (List.range 5) 2 (by decide)).1,
   (c5_slices_reconstruct (List.range 5) 2 (by decide)).2.1 0 (by decide),
   ((c5_slices_reconstruct (List.range 5) 2 (by decide)).2.2 (by decide)).2.2⟩

/-- Claim C6: every navigation transition keeps `currentPage` in
`[1, totalPages]`: first goes to 1, prev to `max 1 (currentPage - 1)`,
next to `min totalPages (currentPage + 1)`, last to `totalPages`; any page
number offered by the window algorithm is in range, so `jump` stays in
range; next at the last page and prev at page 1 are no-ops; and the
control strip is not rendered when pagination is disabled or
`totalPages ≤ 1`. -/
theorem c6_navigation_transitions :
    (∀ t c : Nat, 1 ≤ c → c ≤ t →
      (firstTarget c = 1 ∧ 1 ≤ firstTarget c ∧ firstTarget c ≤ t) ∧
      (prevTarget c = max 1 (c - 1) ∧ 1 ≤ prevTarget c ∧ prevTarget c ≤ t) ∧
      (nextTarget t c = min t (c + 1) ∧ 1 ≤ nextTarget t c ∧
        nextTarget t c ≤ t) ∧
      (lastTarget t = t ∧ 1 ≤ lastTarget t ∧ lastTarget t ≤ t) ∧
      (∀ n : Nat, PageItem.page n ∈ getPageNumbers t c →
        1 ≤ jumpTarget n ∧ jumpTarget n ≤ t) ∧
      (c = t → nextTarget t c = c) ∧
      (c = 1 → prevTarget c = c)) ∧
    (∀ (pag : Bool) (tp : Nat), pag = false ∨ tp ≤ 1 →
      controlsRendered pag tp = false) := by
  constructor
  · intro t c h1 hc
    refine ⟨⟨rfl, by simp [firstTarget], by simp [firstTarget]; omega⟩,
      ⟨rfl, by simp [prevTarget], by simp [prevTarget]; omega⟩,
      ⟨rfl, by simp [nextTarget]; omega, by simp [nextTarget]⟩,
      ⟨rfl, by simp [lastTarget]; omega, by simp [lastTarget]⟩,
      ?_, by intro h; simp [nextTarget]; omega,
      by intro h; simp [prevTarget, h]⟩
    intro n hn
    rw [getPageNumbers] at hn
    by_cases h5 : t ≤ 5
    · rw [if_pos h5] at hn
      simp [List.mem_range'] at hn
      simp [jumpTarget]
      omega
    · rw [if_neg h5] at hn
      by_cases h3 : c ≤ 3
      · rw [if_pos h3] at hn
        simp [List.range'] at hn
        simp [jumpTarget]
        omega
      · rw [if_neg h3] at hn
        by_cases hr : t - 2 ≤ c
        · rw [if_pos hr] at hn
          simp [List.range'] at hn
          simp [jumpTarget]
          omega
        · rw [if_neg hr] at hn
          simp [List.range'] at hn
          simp [jumpTarget]
          omega
  · intro pag tp h
    rcases h with h | h
    · simp [controlsRendered, h]
    · simp [controlsRendered]
      omega

/-- Witness for C6: the no-ops at the boundaries, an offered jump target,
and a hidden control strip, at concrete inputs. -/
theorem c6_navigation_transitions_witness :
    nextTarget 10 10 = 10 ∧ prevTarget 1 = 1 ∧
    (1 ≤ jumpTarget 6 ∧ jumpTarget 6 ≤ 10) ∧
    controlsRendered false 10 = false :=
  ⟨(c6_navigation_transitions.1 10 10 (by decide) (by decide)).2.2.2.2.2.1 rfl,
   (c6_navigation_transitions.1 10 1 (by decide) (by decide)).2.2.2.2.2.2 rfl,
   (c6_navigation_transitions.1 10 7 (by decide) (by decide)).2.2.2.2.1 6
     (by decide),
   c6_navigation_transitions.2 false 10 (Or.inl rfl)⟩

/-- Claim C7 counterexample: a column with `mobileHighlight = true` and
header "Actions" is rendered both in the highlight group and in the
actions group, so the three groups are not a partition of the column
list (the concatenation has 3 entries for 2 columns). -/
theorem c7_disjoint_partition_counterexample :
    ¬ ((highlightColumns overlapColumns ++ gridColumns overlapColumns
      ++ actionsColumns overlapColumns).Perm overlapColumns) := by
  intro h
  have hl := h.length_eq
  simp [overlapColumns, highlightColumns, gridColumns, actionsColumns,
    List.filter, List.find?] at hl

/-- Claim C7 as amended: provided no column has both
`mobileHighlight = true` and header "Actions", and at most one column has
header "Actions", the card renderer partitions the column list into the
three groups, rendered in fixed priority order — highlights without labels,
then the label/value grid of the remaining non-"Actions" columns, then the
"Actions" column — with every column in exactly one group. -/
theorem c7_card_partition (cols : List Column)
    (hsep : ∀ c ∈ cols, ¬(c.mobileHighlight = true ∧ c.header = "Actions"))
    (huniq : cols.countP (fun c => c.header == "Actions") ≤ 1) :
    (highlightColumns cols ++ gridColumns cols ++ actionsColumns cols).Perm
      cols ∧
    (∀ c ∈ highlightColumns cols, c.mobileHighlight = true) ∧
    (∀ c ∈ gridColumns cols,
      c.mobileHighlight = false ∧ c.header ≠ "Actions") ∧
    (∀ c ∈ actionsColumns cols, c.header = "Actions") ∧
    (∀ row : Row, mobileCard cols row =
      { highlights := (highlightColumns cols).map (getCellContent row),
        grid := (gridColumns cols).map
          (fun c => (c.header, getCellContent row c)),
        actions := (actionsColumns cols).map (getCellContent row) }) := by
  refine ⟨card_partition_perm cols hsep huniq, ?_, ?_, ?_, fun _ => rfl⟩
  · intro c hc
    simp [highlightColumns, List.mem_filter] at hc
    exact hc.2
  · intro c hc
    simp [gridColumns, List.mem_filter] at hc
    exact hc.2
  · intro c hc
    unfold actionsColumns at hc
    cases hfind : cols.find? (fun c => c.header == "Actions") with
    | none => rw [hfind] at hc; simp at hc
    | some a =>
      rw [hfind] at hc
      simp at hc
      subst hc
      have hp := List.find?_some hfind
      simpa using hp

/-- Witness for C7 (amended): the partition on a well-formed three-column
list. -/
theorem c7_card_partition_witness :
    (highlightColumns sampleColumns ++ gridColumns sampleColumns
      ++ actionsColumns sampleColumns).Perm sampleColumns :=
  (c7_card_partition sampleColumns (by decide) (by decide)).1

/-- Claim C8: the wide layout renders exactly one header cell per column in
original order and, per record, exactly one body cell per column using the
same projection as the card layout (`getCellContent`); setting
`hideOnMobile` on every column does not remove any cell from this
layout. -/
theorem c8_desktop_grid (columns : List Column) (rows : List Row)
    (row : Row) (i : Nat) :
    (desktopHeaders columns).length = columns.length ∧
    (desktopHeaders columns)[i]? = (columns[i]?).map (fun c => c.header) ∧
    (desktopRow columns row).length = columns.length ∧
    (desktopRow columns row)[i]? = (columns[i]?).map (getCellContent row) ∧
    (desktopTableView columns rows).2
      = rows.map (fun r => columns.map (getCellContent r)) ∧
    desktopTableView (columns.map (fun c => { c with hideOnMobile := true }))
      rows = desktopTableView columns rows := by
  refine ⟨by simp [desktopHeaders], ?_, by simp [desktopRow], ?_, rfl, ?_⟩
  · simp [desktopHeaders, List.getElem?_map]
  · simp [desktopRow, List.getElem?_map]
  · simp [desktopTableView, desktopHeaders, desktopRow, getCellContent]

/-- Claim C9: when `loading` is true only the loading indicator is
rendered, with no table, card or control-strip output; when `loading` is
false and the record list is empty, `totalPages = 0` and only the
`emptyMessage` is rendered. -/
theorem c9_loading_and_empty (columns : List Column) (data : List Row)
    (msg : String) (mcv pag : Bool) (ps c : Nat) :
    dataTable columns data true msg mcv pag ps c = .loadingView ∧
    dataTable columns [] false msg mcv pag ps c = .emptyView msg ∧
    totalPages ([] : List Row).length ps = 0 := by
  exact ⟨rfl, rfl, totalPages_zero ps⟩

/-- Claim C10: for a field-selector accessor the cell content is the
JavaScript string coercion of the field's value; for an absent field both
that no error is raised and that the rendered text is the literal string
"undefined" (the same for every such cell), not the empty string. -/
theorem c10_field_string_coercion (row : Row) (col : Column) (name : String)
    (hacc : col.accessor = .field name) :
    getCellContent row col = .text (jsToString (jsGet row name)) ∧
    (row.fields.lookup name = none →
      getCellContent row col = .text "undefined" ∧
      CellContent.text "undefined" ≠ CellContent.text "") := by
  constructor
  · simp [getCellContent, hacc]
  · intro habs
    refine ⟨?_, by decide⟩
    simp [getCellContent, hacc, jsGet, habs, jsToString]

/-- Witness for C10: a record with no fields and a field-selector column
render the text "undefined". -/
theorem c10_field_string_coercion_witness :
    getCellContent { id := "r1", fields := [] }
      { header := "Name", accessor := .field "name" } = .text "undefined" :=
  ((c10_field_string_coercion { id := "r1", fields := [] }
    { header := "Name", accessor := .field "name" } "name" rfl).2 rfl).1

end DataTable
